import Mathlib

/-!
Verification of the volume-calculation result model of
`src/include/openmc/volume_calc.h`.

C++ `double` values are modelled as real numbers (exact arithmetic, with
`std::sqrt` as `Real.sqrt`), `std::vector<int>` as `List ℤ`,
`std::vector<double>` as `List ℝ`, and `size_t num_samples` as `ℕ`
(sample counts never approach the wrap-around of a 64-bit counter).
`Result::operator+=` takes its right operand by const reference; the model
uses value semantics, which matches every call where the right operand is a
distinct object (or an identical copy) of the left one.
-/

namespace OpenMC

/-- Model of `VolumeCalculation::Result` from `volume_calc.h`.
`volume` is `std::array<double, 2>` holding {mean, standard deviation},
modelled as a pair of reals; the remaining fields follow the C++ struct. -/
structure Result where
  volume : ℝ × ℝ
  nuclides : List ℤ
  atoms : List ℝ
  uncertainty : List ℝ
  num_samples : ℕ

/-- The value of `volume.size()` for the `std::array<double, 2>` member:
always 2. -/
def Result.volumeSize (_ : Result) : ℕ := 2

/-- The local `size_t total_samples = num_samples + other.num_samples;`
computed at the top of `Result::operator+=`; it is the divisor of every
division in the operator body. -/
def Result.total_samples (r other : Result) : ℕ :=
  r.num_samples + other.num_samples

/-- The two `Expects` preconditions at the top of `Result::operator+=`,
exactly as written in the source:
`Expects(volume.size() == other.volume.size());` and
`Expects(atoms.size() == atoms.size());` — note that the second compares the
left operand's `atoms.size()` with itself, not with `other.atoms.size()`. -/
def Result.mergeGuard (r other : Result) : Bool :=
  (r.volumeSize == other.volumeSize) && (r.atoms.length == r.atoms.length)

/-- One execution of the body of the `for (int i = 0; i < volume.size(); i++)`
loop in `Result::operator+=`:
`volume[0] = (num_samples * volume[0] + other.num_samples * other.volume[0]) / total_samples;`
`volume[1] = sqrt(num_samples * volume[1] * volume[1] + other.num_samples * other.volume[1] * other.volume[1]) / total_samples;`
`v` is the current `volume`, `vB` is `other.volume`; the member `num_samples`
(`ns`) and `other` are not modified inside the loop, and the update of
`volume[1]` does not read `volume[0]`. -/
noncomputable def volumeLoopBody (ns nsB total : ℕ) (v vB : ℝ × ℝ) : ℝ × ℝ :=
  (((ns : ℝ) * v.1 + (nsB : ℝ) * vB.1) / (total : ℝ),
   Real.sqrt ((ns : ℝ) * v.2 * v.2 + (nsB : ℝ) * vB.2 * vB.2) / (total : ℝ))

/-- The merge operator `Result::operator+=` from `volume_calc.h`, as a
function from the two operands to the updated left operand.

The loop over `volume` runs `volume.size() = 2` times, so `volumeLoopBody`
is applied twice (the second pass reads the values written by the first,
while `other` and the member `num_samples` are still unchanged).

The second loop runs over `i < atoms.size()` and performs
`atoms[i] = (num_samples * atoms[i] + other.num_samples * other.atoms[i]) / total_samples;`
`uncertainty[i] = sqrt(num_samples * uncertainty[i] * uncertainty[i] + other.num_samples * other.uncertainty[i] * other.uncertainty[i]) / total_samples;`
each index is read before it is written, so the updates use the original
lists. Element reads past the end of a C++ vector are undefined behaviour;
the model reads a default `0` there (`List.getD`), and an out-of-range write
into `uncertainty` leaves the model list unchanged past its length — all
theorems about element values carry matching-length hypotheses, so these
cases never decide a claim. Finally
`num_samples = total_samples;` and `nuclides` is never touched. -/
noncomputable def Result.merge (r other : Result) : Result :=
  let total : ℕ := r.total_samples other
  { volume := volumeLoopBody r.num_samples other.num_samples total
      (volumeLoopBody r.num_samples other.num_samples total r.volume other.volume)
      other.volume
    nuclides := r.nuclides
    atoms := (List.range r.atoms.length).map fun i =>
      ((r.num_samples : ℝ) * r.atoms.getD i 0
        + (other.num_samples : ℝ) * other.atoms.getD i 0) / (total : ℝ)
    uncertainty := r.uncertainty.mapIdx fun i ui =>
      if i < r.atoms.length then
        Real.sqrt ((r.num_samples : ℝ) * ui * ui
          + (other.num_samples : ℝ) * other.uncertainty.getD i 0
            * other.uncertainty.getD i 0) / (total : ℝ)
      else ui
    num_samples := total }

/-- The spec's per-Result shape invariant:
`nuclides.size() == atoms.size() == uncertainty.size()`. -/
def Result.sizesOk (r : Result) : Prop :=
  r.nuclides.length = r.atoms.length ∧ r.atoms.length = r.uncertainty.length

/-- One material seen by the Hit Accumulator during a sampling pass for a
domain: its hit count and its per-nuclide atom densities, listed as
(nuclide index, density) pairs. The accumulator only creates an entry for a
material on its first hit, so a domain with zero hits has an empty list. -/
structure MaterialHits where
  hits : ℕ
  densities : List (ℤ × ℝ)

/-- Nuclide list in first-discovery order: keep the first occurrence of each
nuclide index, drop later duplicates. -/
def dedupFirst : List ℤ → List ℤ
  | [] => []
  | j :: rest => j :: (dedupFirst rest).filter (fun k => k ≠ j)

/-- Atom density of nuclide `j` in material `m` (zero when `j` is not among
the material's nuclides). -/
def MaterialHits.densityOf (m : MaterialHits) (j : ℤ) : ℝ :=
  ((m.densities.filter fun d => d.1 = j).map Prod.snd).sum

/-- Modelled from the spec: the Estimator of `VolumeCalculation::execute`,
whose definition is not part of the given header (`execute` is only declared
there). Following the contract of spec section 4.3: with `n` total samples,
total hits `h = sum of the per-material hit counts`, and `p = h / n`,
the volume mean is `p * bboxVol` and the volume standard deviation
`sqrt(p * (1 - p) / n) * bboxVol`; the nuclide list is the union of the
nuclides of all hit materials in first-discovery order; for each nuclide `j`,
`atoms_j = volume_mean * sum_m((h_m / h) * d_{m,j})`; the uncertainty on
`atoms_j` propagates the binomial variance of each `h_m` (a binomial count
with `n` trials and probability `h_m / n`, each term scaled by that
material's density contribution and the box volume) combined in quadrature
with the volume uncertainty; `num_samples` is `n`. -/
noncomputable def estimatorResult (n : ℕ) (bboxVol : ℝ) (mats : List MaterialHits) :
    Result :=
  let h : ℕ := (mats.map MaterialHits.hits).sum
  let p : ℝ := (h : ℝ) / (n : ℝ)
  let mean : ℝ := p * bboxVol
  let sd : ℝ := Real.sqrt (p * (1 - p) / (n : ℝ)) * bboxVol
  let frac : ℤ → ℝ := fun j =>
    (mats.map fun m => ((m.hits : ℝ) / (h : ℝ)) * m.densityOf j).sum
  let nucs : List ℤ := dedupFirst (mats.flatMap fun m => m.densities.map Prod.fst)
  { volume := (mean, sd)
    nuclides := nucs
    atoms := nucs.map fun j => mean * frac j
    uncertainty := nucs.map fun j =>
      Real.sqrt
        ((mats.map fun m =>
            (bboxVol * m.densityOf j) ^ 2
              * ((m.hits : ℝ) / (n : ℝ)) * (1 - (m.hits : ℝ) / (n : ℝ)) / (n : ℝ)).sum
          + (frac j) ^ 2 * sd ^ 2)
    num_samples := n }

/-- Concrete single-sample Result with volume mean 0 and sd 0 and no
nuclides, used as a merge operand in counterexample evaluations. -/
def exA : Result := ⟨(0, 0), [], [], [], 1⟩

/-- Concrete single-sample Result with volume mean 2 and sd 2 and no
nuclides, used as a merge operand in counterexample evaluations. -/
def exB : Result := ⟨(2, 2), [], [], [], 1⟩

/-- Concrete Result with one nuclide entry, used to exhibit a size-mismatched
pair of merge operands. -/
def exWide : Result := ⟨(0, 0), [5], [1], [0], 1⟩

/-- C3: merging two Results with `Result::operator+=` sets the resulting
`num_samples` to exactly the sum of the operands' `num_samples` fields. -/
theorem merge_num_samples_adds (r other : Result) :
    (r.merge other).num_samples = r.num_samples + other.num_samples := rfl

/-- C10: the merge leaves the left operand's `nuclides` vector and the
lengths of its `atoms` and `uncertainty` vectors exactly unchanged, for every
pair of operands (the right operand is taken by const reference and is a
pure input of the model). -/
theorem merge_frame_nuclides_and_lengths (r other : Result) :
    (r.merge other).nuclides = r.nuclides ∧
      (r.merge other).atoms.length = r.atoms.length ∧
      (r.merge other).uncertainty.length = r.uncertainty.length := by
  refine ⟨rfl, ?_, ?_⟩ <;> simp [Result.merge]

/-- C7: every division in `Result::operator+=` divides by the local
`total_samples = num_samples + other.num_samples`; this divisor is zero
exactly when both operands have `num_samples == 0` (the operator contains no
special-casing for that degenerate case), and under the precondition
`n_A + n_B > 0` it is nonzero. -/
theorem merge_divisor_zero_iff_both_empty (r other : Result) :
    (r.total_samples other = 0 ↔ r.num_samples = 0 ∧ other.num_samples = 0) ∧
      (0 < r.num_samples + other.num_samples → r.total_samples other ≠ 0) := by
  unfold Result.total_samples
  omega

/-- Witness for C7 at concrete operands with 1 and 2 samples. -/
theorem merge_divisor_zero_iff_both_empty_check :
    (Result.total_samples ⟨(0, 0), [], [], [], 1⟩ ⟨(0, 0), [], [], [], 2⟩ = 0 ↔
        (1 : ℕ) = 0 ∧ (2 : ℕ) = 0) ∧
      (0 < 1 + 2 →
        Result.total_samples ⟨(0, 0), [], [], [], 1⟩ ⟨(0, 0), [], [], [], 2⟩ ≠ 0) :=
  merge_divisor_zero_iff_both_empty ⟨(0, 0), [], [], [], 1⟩ ⟨(0, 0), [], [], [], 2⟩

/-- C6 (evaluation at the failing input): for operands whose `atoms` vectors
have different lengths (0 versus 1), the `Expects` checks of
`Result::operator+=` still pass, because the second check compares the left
operand's `atoms.size()` with itself; the mismatch is not detected and the
merge proceeds. -/
theorem merge_guard_passes_on_mismatched_sizes :
    exA.atoms.length ≠ exWide.atoms.length ∧ exA.mergeGuard exWide = true := by
  constructor
  · simp [exA, exWide]
  · rfl

/-- C1 (evaluation at the failing input): merging the one-sample Results with
volume means 0 and 2, the code yields a volume mean of 3/2 while the claimed
sample-count-weighted average `(n_A*mean_A + n_B*mean_B) / (n_A+n_B)` is 1 —
the `for` loop over `volume` applies the weighted-average update twice. -/
theorem merge_mean_weighting_applied_twice :
    (exA.merge exB).volume.1 = 3 / 2 ∧
      ((exA.num_samples : ℝ) * exA.volume.1 + (exB.num_samples : ℝ) * exB.volume.1)
          / ((exA.num_samples : ℝ) + (exB.num_samples : ℝ)) = 1 := by
  constructor
  · show ((1 : ℕ) * (((1 : ℕ) * (0 : ℝ) + (1 : ℕ) * (2 : ℝ)) / ((2 : ℕ) : ℝ))
        + (1 : ℕ) * (2 : ℝ)) / ((2 : ℕ) : ℝ) = 3 / 2
    norm_num
  · show ((1 : ℕ) * (0 : ℝ) + (1 : ℕ) * (2 : ℝ)) / ((1 : ℕ) + (1 : ℕ) : ℝ) = 1
    norm_num

/-- C2 (evaluation at the failing input): merging the one-sample Results with
volume standard deviations 0 and 2, the code yields `sqrt 5 / 2` for the
merged volume standard deviation while the claimed formula
`sqrt(n_A*sd_A^2 + n_B*sd_B^2) / (n_A+n_B)` gives 1 — the `for` loop over
`volume` applies the quadrature update twice. -/
theorem merge_sd_formula_applied_twice :
    (exA.merge exB).volume.2 = Real.sqrt 5 / 2 ∧
      Real.sqrt ((exA.num_samples : ℝ) * exA.volume.2 * exA.volume.2
          + (exB.num_samples : ℝ) * exB.volume.2 * exB.volume.2)
          / ((exA.num_samples : ℝ) + (exB.num_samples : ℝ)) = 1 ∧
      Real.sqrt 5 / 2 ≠ 1 := by
  have h4 : Real.sqrt 4 = 2 := by
    rw [show (4 : ℝ) = 2 ^ 2 by norm_num]
    exact Real.sqrt_sq (by norm_num)
  have h5ne : Real.sqrt 5 / 2 ≠ 1 := by
    intro h
    have hs : Real.sqrt 5 = 2 := by linarith
    have hsq : Real.sqrt 5 ^ 2 = 5 := Real.sq_sqrt (by norm_num)
    rw [hs] at hsq
    norm_num at hsq
  refine ⟨?_, ?_, h5ne⟩
  · simp only [exA, exB, Result.merge, volumeLoopBody, Result.total_samples]
    norm_num [h4]
  · simp only [exA, exB]
    norm_num [h4]

/-- C4 (evaluation at the failing input): with one-sample operands of volume
means 0 and 2, merging in one order yields volume mean 3/2 and in the other
order 1/2, so the merge is not commutative in the volume mean (the doubled
volume loop weights the left operand's mean twice). -/
theorem merge_mean_not_commutative :
    (exA.merge exB).volume.1 = 3 / 2 ∧ (exB.merge exA).volume.1 = 1 / 2 ∧
      (3 / 2 : ℝ) ≠ 1 / 2 := by
  refine ⟨?_, ?_, by norm_num⟩
  · show ((1 : ℕ) * (((1 : ℕ) * (0 : ℝ) + (1 : ℕ) * (2 : ℝ)) / ((2 : ℕ) : ℝ))
        + (1 : ℕ) * (2 : ℝ)) / ((2 : ℕ) : ℝ) = 3 / 2
    norm_num
  · show ((1 : ℕ) * (((1 : ℕ) * (2 : ℝ) + (1 : ℕ) * (0 : ℝ)) / ((2 : ℕ) : ℝ))
        + (1 : ℕ) * (0 : ℝ)) / ((2 : ℕ) : ℝ) = 1 / 2
    norm_num

/-- C5: merging a Result with an identical copy of itself (equal sample
counts, identical contents, no aliasing) reproduces the volume mean and every
per-nuclide atoms mean, and leaves the `nuclides` vector unchanged. -/
theorem merge_self_copy_preserves_means (r : Result) (h : 0 < r.num_samples) :
    (r.merge r).volume.1 = r.volume.1 ∧ (r.merge r).atoms = r.atoms ∧
      (r.merge r).nuclides = r.nuclides := by
  have hn : ((r.num_samples : ℝ)) ≠ 0 := Nat.cast_ne_zero.mpr h.ne'
  have key : ∀ x : ℝ,
      ((r.num_samples : ℝ) * x + (r.num_samples : ℝ) * x)
        / (((r.num_samples + r.num_samples : ℕ)) : ℝ) = x := by
    intro x
    push_cast
    field_simp
    ring
  refine ⟨?_, ?_, rfl⟩
  · simp only [Result.merge, volumeLoopBody, Result.total_samples]
    rw [key, key]
  · simp only [Result.merge, Result.total_samples]
    apply List.ext_getElem
    · simp
    · intro i h1 h2
      simp only [List.getElem_map, List.getElem_range, List.length_map,
        List.length_range] at h1 ⊢
      rw [List.getD_eq_getElem r.atoms 0 h1]
      exact key _

/-- Witness for C5 at a concrete one-sample Result with one nuclide. -/
theorem merge_self_copy_preserves_means_check :
    0 < exWide.num_samples ∧
      ((exWide.merge exWide).volume.1 = exWide.volume.1 ∧
        (exWide.merge exWide).atoms = exWide.atoms ∧
        (exWide.merge exWide).nuclides = exWide.nuclides) :=
  ⟨Nat.one_pos, merge_self_copy_preserves_means exWide Nat.one_pos⟩

/-- C9: the shape invariant `nuclides.size() == atoms.size() ==
uncertainty.size()` is preserved by the merge: when both operands satisfy it
and their `atoms` vectors have equal length, the merged Result satisfies it
with the left operand's sizes. -/
theorem merge_preserves_sizes_invariant (a b : Result) (ha : a.sizesOk)
    (hb : b.sizesOk) (hab : a.atoms.length = b.atoms.length) :
    (a.merge b).sizesOk ∧ (a.merge b).atoms.length = a.atoms.length := by
  obtain ⟨ha1, ha2⟩ := ha
  refine ⟨⟨?_, ?_⟩, ?_⟩ <;> simp [Result.merge, Result.sizesOk, ha1, ha2]

/-- Witness for C9 at a concrete pair of well-shaped one-nuclide Results. -/
theorem merge_preserves_sizes_invariant_check :
    (exWide.merge exWide).sizesOk ∧
      (exWide.merge exWide).atoms.length = exWide.atoms.length :=
  merge_preserves_sizes_invariant exWide exWide ⟨rfl, rfl⟩ ⟨rfl, rfl⟩ rfl

/-- C8: a domain with zero hits over `n > 0` samples (so the Hit Accumulator
holds no materials) produces the valid Result with volume mean and standard
deviation both zero, empty `nuclides`, `atoms` and `uncertainty`, and
`num_samples = n` (modelled from the spec, since `execute` is only declared
in the header). -/
theorem estimator_zero_hits_all_zero (n : ℕ) (v : ℝ) (h : 0 < n) :
    estimatorResult n v [] = ⟨(0, 0), [], [], [], n⟩ := by
  simp [estimatorResult, dedupFirst, Result.mk.injEq]

/-- Witness for C8 with 5 samples over a box of volume 8. -/
theorem estimator_zero_hits_all_zero_check :
    0 < 5 ∧ estimatorResult 5 (8 : ℝ) [] = ⟨(0, 0), [], [], [], 5⟩ :=
  ⟨Nat.succ_pos 4, estimator_zero_hits_all_zero 5 8 (Nat.succ_pos 4)⟩

end OpenMC
